import Mathlib

/-!
# logwarts: context-attribute injection in front of a leveled logger

A shallow embedding of `logwarts.go`.  `GetLogger` closes over a declared key
list and an underlying `*slog.Logger` and returns four function-valued fields
(`Info`, `Warn`, `Debug`, `Error`).  Each one reads the declared keys from the
caller's `context.Context`, prepends the resulting attributes to the explicit
attributes of the call and hands everything to `LogAttrs` of the underlying
logger.

The Go library types the code touches are modelled by what the code observes
of them:

* an interface value of type `any` is `Option GoAny`, the nil interface being
  `none`;
* a `context.Context` is the nil interface or an implementation, of which only
  the `Value` method is used; a method call on the nil interface panics, and so
  may the `Value` method of an implementation the caller wrote;
* the underlying logger is a collaborator whose observable is the sequence of
  `LogAttrs` calls it receives, kept in a `World` that is passed explicitly.
-/

namespace Logwarts

/-! ## Go values -/

/-- Dynamic values held in a non-nil interface of type `any`.  `named` is a value
of a defined type with underlying type string (for instance an unexported
`type ctxKey string`), which is never equal to a plain string.  `nilPtr` is a nil
pointer of the named pointer type: held in an interface it makes the interface
non-nil. -/
inductive GoAny where
  | str (s : String)
  | int (n : Int)
  | bool (b : Bool)
  | named (typeName : String) (s : String)
  | nilPtr (typeName : String)
  deriving DecidableEq, Repr

/-- Run-time panics of the embedded code. -/
inductive Panic where
  | nilDereference
  | nilParent
  | explicit (msg : String)
  deriving DecidableEq, Repr

/-! ## context.Context -/

/-- A value of the interface type `context.Context`, given by its `Value` method
(`none` is the nil result): the nil interface; `impl`, an implementation whose
`Value` returns on every key, as the contexts of package `context` do; `custom`,
any other implementation, whose `Value` may panic (a struct embedding a nil
`Context`, a method on a nil pointer receiver, an explicit `panic`). -/
inductive Context where
  | nil
  | impl (value : GoAny → Option GoAny)
  | custom (value : GoAny → Except Panic (Option GoAny))

/-- The call `ctx.Value(key)`: a method call on the nil interface panics with a
nil pointer dereference; on an implementation it is that implementation's
method, whose panic, if any, is the panic of the call. -/
def Context.Value (ctx : Context) (key : GoAny) : Except Panic (Option GoAny) :=
  match ctx with
  | .nil => .error .nilDereference
  | .impl value => .ok (value key)
  | .custom value => value key

/-- The `Value` method of `context.Background()`: every lookup is a miss. -/
def backgroundValue : GoAny → Option GoAny :=
  fun _ => none

/-- The `Value` method of a context made by `context.WithValue(parent, key, val)`. -/
def valueCtx (parent : GoAny → Option GoAny) (key : GoAny) (val : Option GoAny) :
    GoAny → Option GoAny :=
  fun k => if k = key then val else parent k

/-- The context `context.Background()`. -/
def Background : Context :=
  .impl backgroundValue

/-- The constructor `context.WithValue(parent, key, val)`; it panics on a nil parent. -/
def WithValue (parent : Context) (key : GoAny) (val : Option GoAny) : Except Panic Context :=
  match parent with
  | .nil => .error .nilParent
  | .impl value => .ok (.impl (valueCtx value key val))
  | .custom value => .ok (.custom (fun k => if k = key then .ok val else value k))

/-! ## log/slog -/

/-- The type `slog.Level`, an integer. -/
abbrev Level := Int

/-- The constant `slog.LevelDebug`. -/
def LevelDebug : Level := -4
/-- The constant `slog.LevelInfo`. -/
def LevelInfo : Level := 0
/-- The constant `slog.LevelWarn`. -/
def LevelWarn : Level := 4
/-- The constant `slog.LevelError`. -/
def LevelError : Level := 8

/-- The helper of `Level.String`: the base name, followed by the signed offset
when it is not zero. -/
def Level.str (base : String) (val : Int) : String :=
  if val = 0 then base
  else if 0 < val then base ++ "+" ++ toString val.natAbs
  else base ++ "-" ++ toString val.natAbs

/-- The method `Level.String`, the text of the level field of a record. -/
def Level.String (l : Level) : String :=
  if l < LevelInfo then Level.str "DEBUG" (l - LevelDebug)
  else if l < LevelWarn then Level.str "INFO" (l - LevelInfo)
  else if l < LevelError then Level.str "WARN" (l - LevelWarn)
  else Level.str "ERROR" (l - LevelError)

/-- The type `slog.Value`, by kind. -/
inductive Value where
  | String (s : String)
  | Int64 (n : Int)
  | Bool (b : Bool)
  | Any (v : GoAny)
  deriving DecidableEq, Repr

/-- The type `slog.Attr`, a key and a value. -/
structure Attr where
  Key : String
  Value : Value
  deriving DecidableEq, Repr

/-- The function `slog.AnyValue`: the value is stored under the kind of its
dynamic type; a defined type falls through to `KindAny`. -/
def AnyValue (v : GoAny) : Value :=
  match v with
  | .str s => .String s
  | .int n => .Int64 n
  | .bool b => .Bool b
  | .named t s => .Any (.named t s)
  | .nilPtr t => .Any (.nilPtr t)

/-- The function `slog.Any(key, value)`. -/
def slog.Any (key : String) (value : GoAny) : Attr :=
  ⟨key, AnyValue value⟩

/-- The function `slog.Int(key, value)`. -/
def slog.Int (key : String) (value : Int) : Attr :=
  ⟨key, .Int64 value⟩

/-- The function `slog.String(key, value)`. -/
def slog.String (key : String) (value : String) : Attr :=
  ⟨key, .String value⟩

/-- Where a handler writes. -/
inductive Sink where
  | stdout
  | buffer (id : Nat)
  deriving DecidableEq, Repr

/-- A `*slog.Logger` over a JSON handler: its sink and the `Level` of its handler
options (`none` when the options are nil). -/
structure SlogLogger where
  sink : Sink
  level : Option Level
  deriving DecidableEq, Repr

/-- One call `logger.LogAttrs(ctx, level, msg, attrs...)`. -/
structure LogAttrsCall where
  logger : SlogLogger
  ctx : Context
  level : Level
  msg : String
  attrs : List Attr

/-- The observable state: the `LogAttrs` calls made so far, oldest first. -/
abbrev World := List LogAttrsCall

/-- The method `LogAttrs` of the underlying logger, as the event of being called. -/
def SlogLogger.LogAttrs (logger : SlogLogger) (ctx : Context) (level : Level) (msg : String)
    (attrs : List Attr) (w : World) : World :=
  w ++ [⟨logger, ctx, level, msg, attrs⟩]

/-! ## logwarts.go -/

/-- The struct `Logger`: four function-valued fields. -/
structure Logger where
  Info : Context → String → List Attr → World → Except Panic World
  Error : Context → String → List Attr → World → Except Panic World
  Warn : Context → String → List Attr → World → Except Panic World
  Debug : Context → String → List Attr → World → Except Panic World

/-- The loop of `getDefaultAttributes` over the remaining keys, `defAttrs` being
the slice built so far. -/
def getDefaultAttributes.loop (ctx : Context) :
    List String → List Attr → Except Panic (List Attr)
  | [], defAttrs => .ok defAttrs
  | key :: rest, defAttrs =>
    match ctx.Value (.str key) with
    | .error p => .error p
    | .ok none => getDefaultAttributes.loop ctx rest defAttrs
    | .ok (some value) => getDefaultAttributes.loop ctx rest (defAttrs ++ [slog.Any key value])

/-- The closure `getDefaultAttributes` of `GetLogger`, with the captured
`defaultKeys` as a parameter. -/
def getDefaultAttributes (defaultKeys : List String) (ctx : Context) :
    Except Panic (List Attr) :=
  getDefaultAttributes.loop ctx defaultKeys []

/-- The closure `logMessage` of `GetLogger`, with the captured `defaultKeys` and
`logger` as parameters. -/
def logMessage (defaultKeys : List String) (logger : SlogLogger) (ctx : Context)
    (level : Level) (message : String) (attributes : List Attr) (w : World) :
    Except Panic World :=
  match getDefaultAttributes defaultKeys ctx with
  | .error p => .error p
  | .ok defAttrs =>
    let attr := defAttrs ++ attributes
    .ok (logger.LogAttrs ctx level message attr w)

/-- The logger `slog.New(slog.NewJSONHandler(os.Stdout, nil))`. -/
def defaultLogger : SlogLogger :=
  ⟨.stdout, none⟩

/-- The function `GetLogger`. -/
def GetLogger (defaultKeys : List String) (customLogger : Option SlogLogger) : Logger :=
  let logger := match customLogger with
    | none => defaultLogger
    | some l => l
  { Info := fun ctx message attributes =>
      logMessage defaultKeys logger ctx LevelInfo message attributes
    Warn := fun ctx message attributes =>
      logMessage defaultKeys logger ctx LevelWarn message attributes
    Debug := fun ctx message attributes =>
      logMessage defaultKeys logger ctx LevelDebug message attributes
    Error := fun ctx message attributes =>
      logMessage defaultKeys logger ctx LevelError message attributes }

/-! ## Vocabulary of the statements -/

/-- The four operations of a `Logger`. -/
inductive Op where
  | Info
  | Warn
  | Debug
  | Error
  deriving DecidableEq, Repr

/-- The field of a `Logger` that an operation names. -/
def Logger.run (l : Logger) : Op → Context → String → List Attr → World → Except Panic World
  | .Info => l.Info
  | .Warn => l.Warn
  | .Debug => l.Debug
  | .Error => l.Error

/-- The pairs `(k, C.Value(k))` for the declared keys whose lookup is present, in
declared order: the description the specification gives of the context-derived
attributes. -/
def contextPairs (K : List String) (value : GoAny → Option GoAny) : List Attr :=
  K.filterMap fun k => (value (.str k)).map fun v => slog.Any k v

/-- The declared keys whose lookup in the context is present, in declared order. -/
def presentKeys (K : List String) (value : GoAny → Option GoAny) : List String :=
  K.filter fun k => (value (.str k)).isSome

/-- The logger that `GetLogger` delegates to. -/
def underlying (customLogger : Option SlogLogger) : SlogLogger :=
  match customLogger with
  | none => defaultLogger
  | some l => l

/-- The level each field of `GetLogger` passes to `logMessage`. -/
def Op.level : Op → Level
  | .Info => LevelInfo
  | .Warn => LevelWarn
  | .Debug => LevelDebug
  | .Error => LevelError

/-- The `Value` method of the context of the specification's first scenario:
`userID` and `requestID` set on the background context. -/
def scenarioValue : GoAny → Option GoAny :=
  valueCtx (valueCtx backgroundValue (.str "userID") (some (.str "42069")))
    (.str "requestID") (some (.str "abcd-efgh"))

/-- A context whose only entry is stored under a key of a defined type, as the
`context` package recommends; a declared string key does not find it. -/
def typedKeyValue : GoAny → Option GoAny :=
  valueCtx backgroundValue (.named "ctxKey" "userID") (some (.str "42069"))

/-- A context of a caller-written type that embeds a nil `Context`
(`type brokenCtx struct{ context.Context }`): the interface holding it is not
nil, and its promoted `Value` method dereferences the nil embedded interface. -/
def brokenCtx : Context :=
  .custom fun _ => .error .nilDereference

/-- A caller-written context whose `Value` answers the key `userID` and panics
on every other key. -/
def narrowCtx : Context :=
  .custom fun k =>
    if k = .str "userID" then .ok (some (.str "42069")) else .error (.explicit "unknown key")

/-! ## The loop and the closures on a non-nil context -/

theorem contextPairs_nil (value : GoAny → Option GoAny) : contextPairs [] value = [] := rfl

theorem contextPairs_cons_none (k : String) (K : List String) (value : GoAny → Option GoAny)
    (h : value (.str k) = none) : contextPairs (k :: K) value = contextPairs K value := by
  simp [contextPairs, List.filterMap_cons, h]

theorem contextPairs_cons_some (k : String) (K : List String) (value : GoAny → Option GoAny)
    (v : GoAny) (h : value (.str k) = some v) :
    contextPairs (k :: K) value = slog.Any k v :: contextPairs K value := by
  simp [contextPairs, List.filterMap_cons, h]

theorem loop_impl (value : GoAny → Option GoAny) (K : List String) (defAttrs : List Attr) :
    getDefaultAttributes.loop (.impl value) K defAttrs
      = .ok (defAttrs ++ contextPairs K value) := by
  induction K generalizing defAttrs with
  | nil => simp [getDefaultAttributes.loop, contextPairs_nil]
  | cons k K ih =>
    cases h : value (.str k) with
    | none =>
      simp [getDefaultAttributes.loop, Context.Value, h, ih, contextPairs_cons_none k K value h]
    | some v =>
      simp [getDefaultAttributes.loop, Context.Value, h, ih,
        contextPairs_cons_some k K value v h]

theorem getDefaultAttributes_impl (K : List String) (value : GoAny → Option GoAny) :
    getDefaultAttributes K (.impl value) = .ok (contextPairs K value) := by
  simp [getDefaultAttributes, loop_impl]

theorem getDefaultAttributes_nil_empty : getDefaultAttributes [] .nil = .ok [] := rfl

theorem getDefaultAttributes_nil_cons (k : String) (K : List String) :
    getDefaultAttributes (k :: K) .nil = .error .nilDereference := rfl

theorem logMessage_impl (K : List String) (logger : SlogLogger) (value : GoAny → Option GoAny)
    (level : Level) (message : String) (A : List Attr) (w : World) :
    logMessage K logger (.impl value) level message A w
      = .ok (w ++ [⟨logger, .impl value, level, message, contextPairs K value ++ A⟩]) := by
  simp [logMessage, getDefaultAttributes_impl, SlogLogger.LogAttrs]

theorem run_eq_logMessage (K : List String) (customLogger : Option SlogLogger) (op : Op)
    (ctx : Context) (message : String) (A : List Attr) (w : World) :
    (GetLogger K customLogger).run op ctx message A w
      = logMessage K (underlying customLogger) ctx op.level message A w := by
  cases op <;> cases customLogger <;> rfl

theorem run_impl (K : List String) (customLogger : Option SlogLogger) (op : Op)
    (value : GoAny → Option GoAny) (message : String) (A : List Attr) (w : World) :
    (GetLogger K customLogger).run op (.impl value) message A w
      = .ok (w ++ [⟨underlying customLogger, .impl value, op.level, message,
          contextPairs K value ++ A⟩]) := by
  rw [run_eq_logMessage, logMessage_impl]

theorem mem_contextPairs (K : List String) (value : GoAny → Option GoAny) (a : Attr) :
    a ∈ contextPairs K value ↔ ∃ k ∈ K, ∃ v, value (.str k) = some v ∧ a = slog.Any k v := by
  simp only [contextPairs, List.mem_filterMap, Option.map_eq_some']
  constructor
  · rintro ⟨k, hk, v, hv, rfl⟩
    exact ⟨k, hk, v, hv, rfl⟩
  · rintro ⟨k, hk, v, hv, rfl⟩
    exact ⟨k, hk, v, hv, rfl⟩

theorem contextPairs_keys (K : List String) (value : GoAny → Option GoAny) :
    (contextPairs K value).map Attr.Key = presentKeys K value := by
  induction K with
  | nil => rfl
  | cons k K ih =>
    cases h : value (.str k) with
    | none =>
      rw [contextPairs_cons_none k K value h, ih]
      simp [presentKeys, h]
    | some v =>
      rw [contextPairs_cons_some k K value v h, List.map_cons, ih]
      simp [presentKeys, h, slog.Any]

theorem contextPairs_length (K : List String) (value : GoAny → Option GoAny) :
    (contextPairs K value).length = (presentKeys K value).length := by
  rw [← contextPairs_keys, List.length_map]

theorem contextPairs_filter_key (K : List String) (value : GoAny → Option GoAny) (k : String)
    (v : GoAny) (hv : value (.str k) = some v) :
    (contextPairs K value).filter (fun a => decide (a.Key = k))
      = List.replicate (K.count k) (slog.Any k v) := by
  induction K with
  | nil => rfl
  | cons k0 K ih =>
    by_cases hk : k0 = k
    · subst hk
      rw [contextPairs_cons_some k0 K value v hv]
      simp [List.filter_cons, slog.Any, List.replicate_succ, ih]
    · have hne : ¬ (k0 == k) = true := by simpa using hk
      cases h : value (.str k0) with
      | none =>
        rw [contextPairs_cons_none k0 K value h, ih]
        simp [List.count_cons, hk]
      | some v0 =>
        rw [contextPairs_cons_some k0 K value v0 h]
        simp [List.filter_cons, slog.Any, hk, ih, List.count_cons]

theorem levelString_constants :
    Level.String LevelInfo = "INFO" ∧ Level.String LevelWarn = "WARN" ∧
    Level.String LevelDebug = "DEBUG" ∧ Level.String LevelError = "ERROR" := by
  decide

theorem loop_returns (ctx : Context) (K : List String) (defAttrs : List Attr)
    (h : ∀ k ∈ K, ∃ r, ctx.Value (.str k) = .ok r) :
    ∃ out, getDefaultAttributes.loop ctx K defAttrs = .ok out := by
  induction K generalizing defAttrs with
  | nil => exact ⟨defAttrs, rfl⟩
  | cons k K ih =>
    obtain ⟨r, hr⟩ := h k (List.mem_cons_self k K)
    have hK : ∀ k0 ∈ K, ∃ r0, ctx.Value (.str k0) = .ok r0 :=
      fun k0 hk0 => h k0 (List.mem_cons_of_mem k hk0)
    cases r with
    | none =>
      obtain ⟨out, hout⟩ := ih defAttrs hK
      exact ⟨out, by simp [getDefaultAttributes.loop, hr, hout]⟩
    | some v =>
      obtain ⟨out, hout⟩ := ih (defAttrs ++ [slog.Any k v]) hK
      exact ⟨out, by simp [getDefaultAttributes.loop, hr, hout]⟩

theorem loop_lookups_of_ok (ctx : Context) (K : List String) (defAttrs out : List Attr)
    (h : getDefaultAttributes.loop ctx K defAttrs = .ok out) :
    ∀ k ∈ K, ∃ r, ctx.Value (.str k) = .ok r := by
  induction K generalizing defAttrs with
  | nil => intro k hk; cases hk
  | cons k0 K ih =>
    cases hr : ctx.Value (.str k0) with
    | error p => simp [getDefaultAttributes.loop, hr] at h
    | ok r =>
      intro k hk
      rcases List.mem_cons.1 hk with rfl | hk
      · exact ⟨r, hr⟩
      · cases r with
        | none =>
          simp only [getDefaultAttributes.loop, hr] at h
          exact ih defAttrs h k hk
        | some v =>
          simp only [getDefaultAttributes.loop, hr] at h
          exact ih _ h k hk

theorem logMessage_of_attributes (K : List String) (logger : SlogLogger) (ctx : Context)
    (level : Level) (message : String) (A : List Attr) (w : World) (ctxAttrs : List Attr)
    (h : getDefaultAttributes K ctx = .ok ctxAttrs) :
    logMessage K logger ctx level message A w
      = .ok (w ++ [⟨logger, ctx, level, message, ctxAttrs ++ A⟩]) := by
  simp [logMessage, h, SlogLogger.LogAttrs]

/-- What a panicking lookup does: when an operation returns, every lookup of a
declared key has returned; a panic of `ctx.Value` is never recovered. -/
theorem run_returns_only_if_lookups_return (K : List String)
    (customLogger : Option SlogLogger) (ctx : Context) (op : Op) (message : String)
    (A : List Attr) (w w1 : World)
    (h : (GetLogger K customLogger).run op ctx message A w = .ok w1) :
    ∀ k ∈ K, ∃ r, ctx.Value (.str k) = .ok r := by
  rw [run_eq_logMessage] at h
  cases hg : getDefaultAttributes K ctx with
  | error p => simp [logMessage, hg] at h
  | ok out => exact loop_lookups_of_ok ctx K [] out hg

/-- A non-nil context whose `Value` panics makes the operation panic as the nil
context does. -/
theorem scenario_broken_context_panics :
    (GetLogger ["userID"] none).Warn brokenCtx "Warn message" [] []
      = .error .nilDereference := by
  rfl

theorem run_nil_empty (customLogger : Option SlogLogger) (op : Op) (message : String)
    (A : List Attr) (w : World) :
    (GetLogger [] customLogger).run op .nil message A w
      = .ok (w ++ [⟨underlying customLogger, .nil, op.level, message, A⟩]) := by
  rw [run_eq_logMessage]
  rfl

theorem run_nil_cons (k : String) (K : List String) (customLogger : Option SlogLogger) (op : Op)
    (message : String) (A : List Attr) (w : World) :
    (GetLogger (k :: K) customLogger).run op .nil message A w = .error .nilDereference := by
  rw [run_eq_logMessage]
  rfl

/-- The first scenario of the specification: declared keys `userID` and
`requestID`, both set in the context, and one explicit attribute. -/
theorem scenario_info_message :
    (GetLogger ["userID", "requestID"] none).Info (.impl scenarioValue) "Info message"
        [slog.String "key" "value"] []
      = .ok [⟨defaultLogger, .impl scenarioValue, LevelInfo, "Info message",
          [slog.String "userID" "42069", slog.String "requestID" "abcd-efgh",
            slog.String "key" "value"]⟩] := by
  rfl

/-- The context of the first scenario as the tests build it, by two calls of
`context.WithValue` from `context.Background()`. -/
theorem scenario_context_built :
    (WithValue Background (.str "userID") (some (.str "42069")) >>= fun ctx =>
      WithValue ctx (.str "requestID") (some (.str "abcd-efgh"))) = .ok (.impl scenarioValue) := by
  rfl

/-- A context entry stored under a key of a defined type is not found by the
declared string key of the same spelling. -/
theorem scenario_typed_key_not_found :
    getDefaultAttributes ["userID"] (.impl typedKeyValue) = .ok [] := by
  rfl

/-- A nil pointer stored in the context is a present value for the test
`value != nil` of the loop (the interface holding it is not nil), so its key is
forwarded. -/
theorem scenario_nil_pointer_is_present :
    getDefaultAttributes ["userID"]
        (.impl (valueCtx backgroundValue (.str "userID") (some (.nilPtr "*User"))))
      = .ok [⟨"userID", .Any (.nilPtr "*User")⟩] := by
  rfl

/-! ## The claims -/

/-- C1: for every declared key list `K` and every context, the context-derived
attributes are exactly the pairs `(k, C.Value(k))` of the declared keys whose
lookup is present, in declared order, and nothing else: the closure
`getDefaultAttributes` returns `contextPairs K`, each of the four operations
forwards that list in front of the explicit attributes, an attribute is in it
exactly when it is such a pair, its keys are the present declared keys in
declared order, and every key in it is a declared one. -/
theorem C1_context_attributes_exact (K : List String) (customLogger : Option SlogLogger)
    (value : GoAny → Option GoAny) (op : Op) (message : String) (A : List Attr) (w : World) :
    getDefaultAttributes K (.impl value) = .ok (contextPairs K value) ∧
    (∃ call, (GetLogger K customLogger).run op (.impl value) message A w = .ok (w ++ [call]) ∧
      call.attrs.take (call.attrs.length - A.length) = contextPairs K value) ∧
    (∀ a, a ∈ contextPairs K value ↔
      ∃ k ∈ K, ∃ v, value (.str k) = some v ∧ a = slog.Any k v) ∧
    (contextPairs K value).map Attr.Key = K.filter (fun k => (value (.str k)).isSome) ∧
    (∀ a ∈ contextPairs K value, a.Key ∈ K) := by
  refine ⟨getDefaultAttributes_impl K value, ⟨_, run_impl K customLogger op value message A w, ?_⟩,
    mem_contextPairs K value, contextPairs_keys K value, ?_⟩
  · simp
  · intro a ha
    obtain ⟨k, hk, v, _, rfl⟩ := (mem_contextPairs K value a).1 ha
    exact hk

/-- C2: for every context, message and explicit attribute list `A`, the list
forwarded to the underlying logger is the context-derived attributes followed by
`A`: `A` is a suffix of it, every attribute of `A` is in it, and what follows the
context-derived attributes is `A` itself, in its own order. -/
theorem C2_explicit_attributes_appended (K : List String) (customLogger : Option SlogLogger)
    (value : GoAny → Option GoAny) (op : Op) (message : String) (A : List Attr) (w : World) :
    ∃ call ctxAttrs,
      getDefaultAttributes K (.impl value) = .ok ctxAttrs ∧
      (GetLogger K customLogger).run op (.impl value) message A w = .ok (w ++ [call]) ∧
      call.attrs = ctxAttrs ++ A ∧
      A <:+ call.attrs ∧
      (∀ a ∈ A, a ∈ call.attrs) ∧
      call.attrs.take ctxAttrs.length = ctxAttrs ∧
      call.attrs.drop ctxAttrs.length = A := by
  refine ⟨_, _, getDefaultAttributes_impl K value,
    run_impl K customLogger op value message A w, rfl, ?_, ?_, ?_, ?_⟩
  · exact List.suffix_append _ _
  · intro a ha
    exact List.mem_append_right _ ha
  · simp
  · simp

/-- C3: for every context, message and attribute list, `Info` delegates with
`slog.LevelInfo`, `Warn` with `slog.LevelWarn`, `Debug` with `slog.LevelDebug` and
`Error` with `slog.LevelError`, whose texts are INFO, WARN, DEBUG and ERROR. -/
theorem C3_level_matches_operation (K : List String) (customLogger : Option SlogLogger)
    (value : GoAny → Option GoAny) (message : String) (A : List Attr) (w : World) :
    (∃ call, (GetLogger K customLogger).Info (.impl value) message A w = .ok (w ++ [call]) ∧
      call.level = LevelInfo ∧ Level.String call.level = "INFO") ∧
    (∃ call, (GetLogger K customLogger).Warn (.impl value) message A w = .ok (w ++ [call]) ∧
      call.level = LevelWarn ∧ Level.String call.level = "WARN") ∧
    (∃ call, (GetLogger K customLogger).Debug (.impl value) message A w = .ok (w ++ [call]) ∧
      call.level = LevelDebug ∧ Level.String call.level = "DEBUG") ∧
    (∃ call, (GetLogger K customLogger).Error (.impl value) message A w = .ok (w ++ [call]) ∧
      call.level = LevelError ∧ Level.String call.level = "ERROR") := by
  refine ⟨⟨_, logMessage_impl K _ value _ message A w, rfl, levelString_constants.1⟩,
    ⟨_, logMessage_impl K _ value _ message A w, rfl, levelString_constants.2.1⟩,
    ⟨_, logMessage_impl K _ value _ message A w, rfl, levelString_constants.2.2.1⟩,
    ⟨_, logMessage_impl K _ value _ message A w, rfl, levelString_constants.2.2.2⟩⟩

/-- C4: a key whose lookup in the context is a miss is left out, not logged as
empty or null: when the explicit attributes do not use the key either, no
attribute of the forwarded list has it.  The statement holds for every key, in
particular for the declared ones. -/
theorem C4_missing_key_omitted (K : List String) (customLogger : Option SlogLogger)
    (value : GoAny → Option GoAny) (op : Op) (message : String) (A : List Attr) (w : World)
    (k : String) (hmiss : value (.str k) = none) (hA : ∀ a ∈ A, a.Key ≠ k) :
    ∃ call, (GetLogger K customLogger).run op (.impl value) message A w = .ok (w ++ [call]) ∧
      ∀ a ∈ call.attrs, a.Key ≠ k := by
  refine ⟨_, run_impl K customLogger op value message A w, ?_⟩
  intro a ha
  rcases List.mem_append.1 ha with h | h
  · obtain ⟨k0, _, v, hv, rfl⟩ := (mem_contextPairs K value a).1 h
    intro hk
    have hk0 : k0 = k := hk
    subst hk0
    rw [hmiss] at hv
    exact Option.noConfusion hv
  · exact hA a h

/-- The scenario of C4: declared keys `["userID"]`, the background context,
`Warn(ctx, "Warn message")`; nothing with key `userID` is forwarded. -/
theorem C4_missing_key_omitted_witness :
    ∃ call, (GetLogger ["userID"] none).run .Warn (.impl backgroundValue) "Warn message" [] []
        = .ok ([] ++ [call]) ∧
      ∀ a ∈ call.attrs, a.Key ≠ "userID" :=
  C4_missing_key_omitted ["userID"] none backgroundValue .Warn "Warn message" [] [] "userID" rfl
    (by simp)

/-- C5: no deduplication.  The forwarded list has as many attributes as there
are declared keys present in the context (counted as entries of the declared
list) plus explicit attributes; and when a declared key present in the context
is also the key of an explicit attribute, both entries are forwarded, the
context-derived one at an earlier position than the explicit one. -/
theorem C5_no_deduplication (K : List String) (customLogger : Option SlogLogger)
    (value : GoAny → Option GoAny) (op : Op) (message : String) (A : List Attr) (w : World) :
    ∃ call, (GetLogger K customLogger).run op (.impl value) message A w = .ok (w ++ [call]) ∧
      call.attrs.length = (K.filter (fun k => (value (.str k)).isSome)).length + A.length ∧
      ∀ (k : String) (v : GoAny) (a : Attr), k ∈ K → value (.str k) = some v → a ∈ A →
        a.Key = k →
        ∃ i j : Nat, i < j ∧ call.attrs[i]? = some (slog.Any k v) ∧ call.attrs[j]? = some a := by
  refine ⟨_, run_impl K customLogger op value message A w, ?_, ?_⟩
  · show (contextPairs K value ++ A).length = _
    rw [List.length_append, contextPairs_length]
    rfl
  · intro k v a hk hv ha _
    have hmem : slog.Any k v ∈ contextPairs K value :=
      (mem_contextPairs K value _).2 ⟨k, hk, v, hv, rfl⟩
    obtain ⟨i, hi, hget⟩ := List.getElem_of_mem hmem
    obtain ⟨j, hj, hgetj⟩ := List.getElem_of_mem ha
    refine ⟨i, (contextPairs K value).length + j, by omega, ?_, ?_⟩
    · show (contextPairs K value ++ A)[i]? = _
      rw [List.getElem?_append_left hi, List.getElem?_eq_getElem hi, hget]
    · show (contextPairs K value ++ A)[(contextPairs K value).length + j]? = _
      rw [List.getElem?_append_right (by omega)]
      simp [List.getElem?_eq_getElem hj, hgetj]

/-- An instance of C5: the declared key `userID` is present in the context and
is also the key of an explicit attribute; three attributes are forwarded and both
`userID` entries are among them, the context-derived one first. -/
theorem C5_no_deduplication_witness :
    ∃ call, (GetLogger ["userID", "requestID"] none).run .Info (.impl scenarioValue) "Info message"
        [slog.String "userID" "explicit"] [] = .ok ([] ++ [call]) ∧
      call.attrs.length = 3 ∧
      ∃ i j : Nat, i < j ∧ call.attrs[i]? = some (slog.Any "userID" (.str "42069")) ∧
        call.attrs[j]? = some (slog.String "userID" "explicit") := by
  obtain ⟨call, hrun, hlen, hboth⟩ := C5_no_deduplication ["userID", "requestID"] none
    scenarioValue .Info "Info message" [slog.String "userID" "explicit"] []
  exact ⟨call, hrun, hlen, hboth "userID" (.str "42069") (slog.String "userID" "explicit")
    (by simp) rfl (by simp) rfl⟩

/-- C6: every call of one of the four operations makes exactly one `LogAttrs`
call: the calls made before are kept and one is added, on the logger supplied at
construction (on the default logger when none is supplied), with the caller's
context and message unchanged and the merged attribute list. -/
theorem C6_exactly_one_delegation (K : List String) (value : GoAny → Option GoAny) (op : Op)
    (message : String) (A : List Attr) (w : World) :
    ∃ level ctxAttrs,
      getDefaultAttributes K (.impl value) = .ok ctxAttrs ∧
      (∀ l : SlogLogger, (GetLogger K (some l)).run op (.impl value) message A w
        = .ok (w ++ [⟨l, .impl value, level, message, ctxAttrs ++ A⟩])) ∧
      (GetLogger K none).run op (.impl value) message A w
        = .ok (w ++ [⟨defaultLogger, .impl value, level, message, ctxAttrs ++ A⟩]) := by
  exact ⟨op.level, _, getDefaultAttributes_impl K value,
    fun l => run_impl K (some l) op value message A w,
    run_impl K none op value message A w⟩

/-- C7, as stated, fails: with the nil context and the declared key list
`["userID"]`, the first lookup `ctx.Value(key)` is a method call on a nil
interface, so building the context-derived attributes panics and `Warn` returns
no world; the underlying logger is never reached. -/
theorem C7_nil_context_panics :
    getDefaultAttributes ["userID"] .nil = .error .nilDereference ∧
    (GetLogger ["userID"] none).Warn .nil "Warn message" [] [] = .error .nilDereference ∧
    ¬ ∃ w : World, (GetLogger ["userID"] none).Warn .nil "Warn message" [] [] = .ok w := by
  refine ⟨rfl, rfl, ?_⟩
  rintro ⟨w, hw⟩
  have h : (GetLogger ["userID"] none).Warn .nil "Warn message" [] []
      = .error .nilDereference := rfl
  rw [h] at hw
  exact Except.noConfusion hw

/-- C7, amended: for every context whose lookup `ctx.Value(k)` returns for each
declared key `k` (every context of package `context`; every context at all, the
nil one included, when the declared key list is empty), each of the four
operations builds the context-derived attributes, merges them with the explicit
attributes and reaches the underlying logger without error or panic, for every
message and every attribute list (the empty ones included). -/
theorem C7_completes_when_lookups_return (K : List String) (customLogger : Option SlogLogger)
    (ctx : Context) (op : Op) (message : String) (A : List Attr) (w : World)
    (h : ∀ k ∈ K, ∃ r, ctx.Value (.str k) = .ok r) :
    ∃ ctxAttrs call, getDefaultAttributes K ctx = .ok ctxAttrs ∧
      (GetLogger K customLogger).run op ctx message A w = .ok (w ++ [call]) ∧
      call.attrs = ctxAttrs ++ A := by
  obtain ⟨out, hout⟩ := loop_returns ctx K [] h
  refine ⟨out, ⟨underlying customLogger, ctx, op.level, message, out ++ A⟩, hout, ?_, rfl⟩
  rw [run_eq_logMessage]
  exact logMessage_of_attributes K _ ctx _ message A w out hout

/-- Three instances of amended C7: the background context with a declared key
and no explicit attribute; the nil context with no declared key; and a
caller-written context that answers the one declared key and would panic on any
other. -/
theorem C7_completes_when_lookups_return_witness :
    (∃ ctxAttrs call, getDefaultAttributes ["userID"] Background = .ok ctxAttrs ∧
      (GetLogger ["userID"] none).run .Warn Background "Warn message" [] [] = .ok ([] ++ [call]) ∧
      call.attrs = ctxAttrs ++ []) ∧
    (∃ ctxAttrs call, getDefaultAttributes [] .nil = .ok ctxAttrs ∧
      (GetLogger [] none).run .Error .nil "Error message" [slog.Int "errorCode" 500] []
        = .ok ([] ++ [call]) ∧
      call.attrs = ctxAttrs ++ [slog.Int "errorCode" 500]) ∧
    (∃ ctxAttrs call, getDefaultAttributes ["userID"] narrowCtx = .ok ctxAttrs ∧
      (GetLogger ["userID"] none).run .Info narrowCtx "Info message"
        [slog.String "key" "value"] [] = .ok ([] ++ [call]) ∧
      call.attrs = ctxAttrs ++ [slog.String "key" "value"]) :=
  ⟨C7_completes_when_lookups_return ["userID"] none Background .Warn "Warn message" [] []
      (fun k _ => ⟨backgroundValue (.str k), rfl⟩),
    C7_completes_when_lookups_return [] none .nil .Error "Error message"
      [slog.Int "errorCode" 500] [] (fun k hk => absurd hk (List.not_mem_nil k)),
    C7_completes_when_lookups_return ["userID"] none narrowCtx .Info "Info message"
      [slog.String "key" "value"] []
      (fun k hk => by
        rw [List.mem_singleton] at hk
        subst hk
        exact ⟨some (.str "42069"), rfl⟩)⟩

/-- C8: two sequential calls of the same operation with the same context,
message and explicit attributes add the same call twice: what an operation
forwards does not depend on the calls made before it. -/
theorem C8_repeated_call_identical (K : List String) (customLogger : Option SlogLogger)
    (value : GoAny → Option GoAny) (op : Op) (message : String) (A : List Attr) (w : World) :
    ∃ call,
      (∀ w0 : World,
        (GetLogger K customLogger).run op (.impl value) message A w0 = .ok (w0 ++ [call])) ∧
      ((GetLogger K customLogger).run op (.impl value) message A w >>=
        (GetLogger K customLogger).run op (.impl value) message A) = .ok (w ++ [call, call]) := by
  refine ⟨_, fun w0 => run_impl K customLogger op value message A w0, ?_⟩
  rw [run_impl]
  show (GetLogger K customLogger).run op (.impl value) message A _ = _
  rw [run_impl]
  simp

/-- C10: the declared key list is not deduplicated: when a key present in the
context occurs `n` times in the declared list, the context-derived attributes hold
exactly `n` attributes with that key, each the pair of the key and its value, and
the keys of the context-derived attributes are the present declared keys at their
declared positions. -/
theorem C10_declared_duplicates_kept (K : List String) (value : GoAny → Option GoAny)
    (k : String) (v : GoAny) (hv : value (.str k) = some v) :
    ∃ ctxAttrs, getDefaultAttributes K (.impl value) = .ok ctxAttrs ∧
      ctxAttrs.filter (fun a => decide (a.Key = k)) = List.replicate (K.count k) (slog.Any k v) ∧
      ctxAttrs.countP (fun a => decide (a.Key = k)) = K.count k ∧
      ctxAttrs.map Attr.Key = K.filter (fun k0 => (value (.str k0)).isSome) := by
  refine ⟨_, getDefaultAttributes_impl K value, contextPairs_filter_key K value k v hv, ?_,
    contextPairs_keys K value⟩
  rw [List.countP_eq_length_filter, contextPairs_filter_key K value k v hv, List.length_replicate]

/-- An instance of C10: `userID` is declared twice around `requestID`; two
`userID` attributes are produced, at the first and the third position. -/
theorem C10_declared_duplicates_kept_witness :
    ∃ ctxAttrs, getDefaultAttributes ["userID", "requestID", "userID"] (.impl scenarioValue)
        = .ok ctxAttrs ∧
      ctxAttrs.filter (fun a => decide (a.Key = "userID"))
        = [slog.Any "userID" (.str "42069"), slog.Any "userID" (.str "42069")] ∧
      ctxAttrs.countP (fun a => decide (a.Key = "userID")) = 2 ∧
      ctxAttrs.map Attr.Key = ["userID", "requestID", "userID"] :=
  C10_declared_duplicates_kept ["userID", "requestID", "userID"] scenarioValue "userID"
    (.str "42069") rfl

end Logwarts
